import Mathlib

set_option maxHeartbeats 1000000
set_option linter.unusedVariables false

/- Shallow embedding of the Pterodactyl-Frontend console relay core:
   the in-memory token registry (tokenStore: storeToken/getToken/deleteToken/listTokens),
   the console-token issuer (functions.js getConsoleToken), and the websocket
   proxy session state machine (the HTTP upgrade handler in the server file). -/

/-- JS whitespace predicate (the ASCII portion relevant to this codebase),
as used by String.prototype.trim. -/
def jsIsWS (c : Char) : Bool :=
  c == ' ' || c == '\t' || c == '\n' || c == '\r' || c == '\x0b' || c == '\x0c'

/-- Characters of a string with leading and trailing JS whitespace removed. -/
def trimChars (l : List Char) : List Char :=
  ((l.dropWhile jsIsWS).reverse.dropWhile jsIsWS).reverse

/-- Model of the JS expression String(x).trim() acting on a string value. -/
def jsTrim (s : String) : String := String.mk (trimChars s.data)

/-- The JavaScript primitive values this codebase passes around
(event args, token-store keys). undefined and null are distinguished
because both occur as "absent credential" inputs. -/
inductive JSVal
  | str (s : String)
  | num (n : Int)
  | nullv
  | undef
  | boolv (b : Bool)
deriving DecidableEq, Repr

/-- JS truthiness of a primitive value. -/
def JSVal.truthy : JSVal → Bool
  | .str s => !(s == "")
  | .num n => !(n == 0)
  | .nullv => false
  | .undef => false
  | .boolv b => b

/-- JS String(x) conversion of a primitive value. -/
def JSVal.jsToString : JSVal → String
  | .str s => s
  | .num n => toString n
  | .nullv => "null"
  | .undef => "undefined"
  | .boolv b => if b then "true" else "false"

/-- Truthiness of a nullable JS string (none models null/undefined,
some "" models the empty string: both are falsy). -/
def truthyOS : Option String → Bool
  | none => false
  | some s => !(s == "")

/-- JS || on nullable strings: first truthy operand wins. -/
def jsOrS (a b : Option String) : Option String := if truthyOS a then a else b

/-- The metadata callers pass to storeToken: { serverId, socket, expiresAt }. -/
structure TokenMeta where
  serverId : String
  socket : Option String
  expiresAt : Option Nat
deriving DecidableEq, Repr

/-- The record held in the STORE map: { ...meta, createdAt: now() }. -/
structure TokenRecord where
  serverId : String
  socket : Option String
  expiresAt : Option Nat
  createdAt : Nat
deriving DecidableEq, Repr

/-- The STORE Map of tokenStore, as an insertion-ordered association list
(JS Map preserves insertion order; set replaces in place). -/
abbrev Store := List (String × TokenRecord)

/-- JS Map.prototype.get. -/
def mapGet : Store → String → Option TokenRecord
  | [], _ => none
  | (k0, v0) :: rest, k => if k0 = k then some v0 else mapGet rest k

/-- JS Map.prototype.set: replaces the value in place if the key exists,
otherwise appends the new entry at the end. -/
def mapSet : Store → String → TokenRecord → Store
  | [], k, v => [(k, v)]
  | (k0, v0) :: rest, k, v =>
    if k0 = k then (k0, v) :: rest else (k0, v0) :: mapSet rest k v

/-- JS Map.prototype.delete (removes the entry for the key, if any). -/
def mapDelete : Store → String → Store
  | [], _ => []
  | (k0, v0) :: rest, k => if k0 = k then rest else (k0, v0) :: mapDelete rest k

/-- tokenStore.storeToken(token, meta): no-op on a falsy token, otherwise
stores { ...meta, createdAt: now() } under the trimmed key. -/
def storeToken (now : Nat) (token : JSVal) (meta : TokenMeta) (st : Store) : Store :=
  if token.truthy then
    mapSet st (jsTrim token.jsToString)
      { serverId := meta.serverId, socket := meta.socket,
        expiresAt := meta.expiresAt, createdAt := now }
  else st

/-- The lazy-expiry test in getToken: `t.expiresAt && now() > t.expiresAt`
(a zero expiresAt is falsy in JS, hence never expires). -/
def isExpiredAt (now : Nat) (expiresAt : Option Nat) : Bool :=
  match expiresAt with
  | some e => decide (e ≠ 0) && decide (e < now)
  | none => false

/-- tokenStore.getToken(token): trims the key, looks it up, lazily deletes
and returns null once past expiresAt. Returns the result together with the
store after the call (to model the lazy deletion). -/
def getToken (now : Nat) (token : JSVal) (st : Store) : Option TokenRecord × Store :=
  let key := jsTrim token.jsToString
  match mapGet st key with
  | none => (none, st)
  | some t => if isExpiredAt now t.expiresAt then (none, mapDelete st key) else (some t, st)

/-- tokenStore.deleteToken(token). -/
def deleteToken (token : JSVal) (st : Store) : Store :=
  mapDelete st (jsTrim token.jsToString)

/-- One element of listTokens() output; the field tokenRedacted models the
source field named tokenPrefix (k.slice(0,8) + '...'). -/
structure TokenListEntry where
  tokenRedacted : String
  serverId : String
  createdAt : Nat
  expiresAt : Option Nat
deriving DecidableEq, Repr

/-- k.slice(0,8) + '...' — the redaction applied both by listTokens and by
the relay's token refreshed notification. -/
def redact8 (k : String) : String := String.mk (k.data.take 8 ++ "...".data)

/-- tokenStore.listTokens(): diagnostic listing over all entries
(note: it does not filter expired entries; expiry is lazy in getToken). -/
def listTokens (st : Store) : List TokenListEntry :=
  st.map (fun p =>
    { tokenRedacted := redact8 p.1, serverId := p.2.serverId,
      createdAt := p.2.createdAt, expiresAt := p.2.expiresAt })

/-- Keys of a store are pairwise distinct: every store reachable through the
tokenStore operations satisfies this (JS Map keys are unique). -/
def StoreWF (st : Store) : Prop := (st.map Prod.fst).Nodup

/-- The loosely shaped response body of a panel websocket-token request.
Each field models one of the optional-chaining paths probed by
getConsoleToken: response.data?.data?.token, response.data?.token,
response.data?.attributes?.token, and the two socket paths. -/
structure PanelResp where
  dataToken : Option String
  topToken : Option String
  attrToken : Option String
  dataSocket : Option String
  topSocket : Option String
deriving DecidableEq, Repr

/-- Outcome of one upstream HTTP attempt (axios.get): a response body or a
thrown/declined request, as observed at the try/catch boundary. -/
inductive HttpOutcome
  | ok (resp : PanelResp)
  | fail
deriving DecidableEq, Repr

/-- tokenStr extraction: data?.data?.token || data?.token || data?.attributes?.token || null. -/
def extractToken (r : PanelResp) : Option String :=
  jsOrS r.dataToken (jsOrS r.topToken (jsOrS r.attrToken none))

/-- socket extraction: data?.data?.socket || data?.socket || null. -/
def extractSocket (r : PanelResp) : Option String :=
  jsOrS r.dataSocket (jsOrS r.topSocket none)

/-- The structured result of getConsoleToken:
{ success, token?, socket?, error? } (the data field is omitted). -/
structure ConsoleTokenResult where
  success : Bool
  token : Option String := none
  socket : Option String := none
  error : Option String := none
deriving DecidableEq, Repr

/-- Which upstream issuance operations getConsoleToken attempted, in order:
the client-API GET, and the application-API fallback GET. -/
inductive ConsoleAttempt
  | clientApi
  | applicationApi
deriving DecidableEq, Repr

/-- functions.js getConsoleToken(serverId, apiKey = CLIENT_API_KEY).
panelUrl/appKey are the PANEL_URL / PTERODACTYL_APPLICATION_API_KEY
environment values; primary/secondary are the outcomes the two possible
axios.get attempts would observe. Returns the structured result together
with the list of attempts actually made. -/
def getConsoleToken (panelUrl appKey apiKey : Option String) (rid : String)
    (primary secondary : HttpOutcome) : ConsoleTokenResult × List ConsoleAttempt :=
  if !truthyOS panelUrl then
    ({ success := false, error := some "Panel URL not configured." }, [])
  else if !truthyOS apiKey then
    ({ success := false, error := some "Client API key not configured." }, [])
  else
    match primary with
    | .ok r =>
      ({ success := true, token := extractToken r, socket := extractSocket r }, [.clientApi])
    | .fail =>
      if truthyOS appKey then
        match secondary with
        | .ok r2 =>
          ({ success := true, token := extractToken r2, socket := extractSocket r2 },
           [.clientApi, .applicationApi])
        | .fail =>
          ({ success := false, error := some "Could not obtain console token from panel." },
           [.clientApi, .applicationApi])
      else
        ({ success := false, error := some "Could not obtain console token from panel." },
         [.clientApi])

/-- A websocket frame as the relay sees it after JSON.parse: either a JSON
object carrying an event field (the structured envelope), or any other
payload (non-JSON text, binary, or JSON without an event field), which the
relay treats opaquely. -/
inductive WireMsg
  | json (event : String) (args : List JSVal)
  | other (raw : String)
deriving DecidableEq, Repr

/-- The relay's synthesized error frame: { event: 'error', args: [msg] }. -/
def errFrame (msg : String) : WireMsg := .json "error" [.str msg]

/-- The auth-frame test of the pre-auth onMessage handler:
parsed && parsed.event === 'auth' && Array.isArray(parsed.args) && parsed.args[0].
Yields the credential argument when the frame qualifies. -/
def authFrameArg : WireMsg → Option JSVal
  | .json ev args =>
    if ev = "auth" then
      match args.head? with
      | some v => if v.truthy then some v else none
      | none => none
    else none
  | .other _ => none

/-- The auth test of forwardClientMessage: p && p.event === 'auth'
(note: unlike the handshake test, it does not inspect args). -/
def isAuthEvent : WireMsg → Bool
  | .json ev _ => ev == "auth"
  | .other _ => false

/-- The backend events that trigger a credential refresh. -/
def isTokenLifecycle (ev : String) : Bool :=
  ev == "token expiring" || ev == "token expired"

/-- MAX_QUEUE = 200. -/
def MAX_QUEUE : Nat := 200

/-- The enqueue branch of forwardClientMessage: drop the oldest entry when
the queue is full, then push the new message. -/
def queuePush (q : List WireMsg) (m : WireMsg) : List WireMsg :=
  if MAX_QUEUE ≤ q.length then q.drop 1 ++ [m] else q ++ [m]

/-- Effect of one client message on the pending queue while the backend
socket is not yet open: auth frames are ignored, others are pushed. -/
def queueStep (q : List WireMsg) (m : WireMsg) : List WireMsg :=
  if isAuthEvent m then q else queuePush q m

/-- Phase of one relay session (the upgrade-handler closure state):
awaiting the handshake; authenticated with the backend socket still
connecting; relaying with the backend socket open; or closed. The
authenticated phases carry the consumed credential argument and the
registry record it resolved to (closure variables token and meta). -/
inductive SessionPhase
  | awaitingAuth
  | connecting (tok : JSVal) (meta : TokenRecord)
  | relaying (tok : JSVal) (meta : TokenRecord)
  | closed
deriving DecidableEq, Repr

/-- Full state of one relay session: phase, the pending client-to-backend
queue, and the (shared) token registry it reads and writes. -/
structure SessionState where
  phase : SessionPhase
  queue : List WireMsg
  store : Store
deriving DecidableEq, Repr

/-- Observable actions the session emits, in order: frames sent to either
side, connection management, and issuance calls to getConsoleToken. -/
inductive Out
  | toClient (m : WireMsg)
  | toRemote (m : WireMsg)
  | openRemote (endpoint : Option String)
  | closeClient
  | closeRemote
  | issueReq (rid : String)
deriving DecidableEq, Repr

/-- Events delivered to the session by its two connections and its timer. -/
inductive Ev
  | clientMsg (m : WireMsg)
  | authTimeoutFire
  | remoteOpen
  | remoteMsg (m : WireMsg)
  | remoteClose
  | remoteError
  | clientClose
  | clientError
deriving DecidableEq, Repr

/-- The token-refresh block of the backend message handler: one
getConsoleToken call; on success store the new token under the same
serverId with a fresh 15-minute TTL, re-auth the existing backend socket,
and notify the client with the 8-character redaction; on failure send a
structured error. The original expiry message is forwarded afterwards
either way. -/
def refreshOutputs (issue : String → ConsoleTokenResult) (rid : String) (now : Nat)
    (meta : TokenRecord) (st : Store) (m : WireMsg) : Store × List Out :=
  let r := issue rid
  if r.success && truthyOS r.token then
    let newTok := (r.token.getD "null")
    let newSocket := if truthyOS r.socket then r.socket else meta.socket
    let st2 := storeToken now (.str newTok)
      { serverId := rid, socket := newSocket, expiresAt := some (now + 15 * 60 * 1000) } st
    (st2, [Out.issueReq rid,
           Out.toRemote (.json "auth" [.str newTok]),
           Out.toClient (.json "token refreshed" [.str (redact8 newTok)]),
           Out.toClient m])
  else
    (st, [Out.issueReq rid, Out.toClient (errFrame "Token refresh failed"), Out.toClient m])

/-- One step of the relay session on one event, returning the next state
and the emitted actions. Faithful to the upgrade handler: the 15s auth
timer is armed exactly during awaitingAuth (clearTimeout runs as soon as
an auth-shaped frame arrives); non-auth frames are ignored before auth;
an invalid or mismatched credential yields a structured error and close;
a valid one opens the backend socket; before the backend reports open,
client messages are queued (bounded, oldest evicted) and auth frames
dropped; on open the auth frame is forwarded and the queue flushed FIFO;
during relaying, client frames are forwarded (auth frames dropped),
backend token-lifecycle frames trigger refreshOutputs, all other backend
frames are forwarded verbatim, and either side closing closes the other. -/
def step (issue : String → ConsoleTokenResult) (rid : String) (now : Nat)
    (s : SessionState) (e : Ev) : SessionState × List Out :=
  match s.phase, e with
  | .awaitingAuth, .clientMsg m =>
    match authFrameArg m with
    | none => (s, [])
    | some v =>
      let res := getToken now v s.store
      match res.1 with
      | some meta =>
        if meta.serverId = rid then
          ({ phase := .connecting v meta, queue := s.queue, store := res.2 },
           [Out.openRemote meta.socket])
        else
          ({ phase := .closed, queue := s.queue, store := res.2 },
           [Out.toClient (errFrame "Invalid or expired token"), Out.closeClient])
      | none =>
        ({ phase := .closed, queue := s.queue, store := res.2 },
         [Out.toClient (errFrame "Invalid or expired token"), Out.closeClient])
  | .awaitingAuth, .authTimeoutFire =>
    ({ s with phase := .closed },
     [Out.toClient (errFrame "Auth timeout"), Out.closeClient])
  | .awaitingAuth, _ => (s, [])
  | .connecting _ _, .clientMsg m =>
    ({ s with queue := queueStep s.queue m }, [])
  | .connecting tok meta, .remoteOpen =>
    ({ phase := .relaying tok meta, queue := [], store := s.store },
     Out.toRemote (.json "auth" [tok]) :: s.queue.map Out.toRemote)
  | .connecting _ _, .remoteError =>
    ({ s with phase := .closed },
     [Out.toClient (errFrame "Backend connection error"), Out.closeClient])
  | .connecting _ _, .clientClose => ({ s with phase := .closed }, [Out.closeRemote])
  | .connecting _ _, .clientError => ({ s with phase := .closed }, [Out.closeRemote])
  | .connecting _ _, _ => (s, [])
  | .relaying _ _, .clientMsg m =>
    if isAuthEvent m then (s, []) else (s, [Out.toRemote m])
  | .relaying _ meta, .remoteMsg m =>
    match m with
    | .json ev _ =>
      if isTokenLifecycle ev then
        let r := refreshOutputs issue rid now meta s.store m
        ({ s with store := r.1 }, r.2)
      else (s, [Out.toClient m])
    | .other _ => (s, [Out.toClient m])
  | .relaying _ _, .remoteClose => ({ s with phase := .closed }, [Out.closeClient])
  | .relaying _ _, .remoteError =>
    ({ s with phase := .closed },
     [Out.toClient (errFrame "Backend connection error"), Out.closeClient, Out.closeClient])
  | .relaying _ _, .clientClose => ({ s with phase := .closed }, [Out.closeRemote])
  | .relaying _ _, .clientError => ({ s with phase := .closed }, [Out.closeRemote])
  | .relaying _ _, _ => (s, [])
  | .closed, _ => (s, [])

/-- Run the session over a timed event trace, concatenating outputs. -/
def runSession (issue : String → ConsoleTokenResult) (rid : String) :
    SessionState → List (Nat × Ev) → SessionState × List Out
  | s, [] => (s, [])
  | s, (t, e) :: rest =>
    let r := step issue rid t s e
    let r2 := runSession issue rid r.1 rest
    (r2.1, r.2 ++ r2.2)

/-- Does this client frame authenticate successfully right now: it is
auth-shaped and its credential resolves in the registry to a record for
this relay's resource id (the validation of the handshake handler). -/
def validAuthB (now : Nat) (st : Store) (rid : String) (m : WireMsg) : Bool :=
  match authFrameArg m with
  | none => false
  | some v =>
    match (getToken now v st).1 with
    | some meta => meta.serverId == rid
    | none => false

/-- Recognizer for a structured error frame sent to the client. -/
def isClientErrorOut : Out → Bool
  | .toClient (.json "error" _) => true
  | _ => false

/-- Number of structured error frames the client receives in a run. -/
def countClientErrors (outs : List Out) : Nat :=
  (outs.filter isClientErrorOut).length

/-- Recognizer for an issuance call to the Credential Issuer. -/
def isIssueOut : Out → Bool
  | .issueReq _ => true
  | _ => false

/-- Number of issuance calls in a run. -/
def countIssueCalls (outs : List Out) : Nat :=
  (outs.filter isIssueOut).length

/-- An issuer that always reports failure (used for concrete instances
where the issuer is never consulted or must fail). -/
def issueFail : String → ConsoleTokenResult := fun _ => { success := false }

/-- An issuer that always succeeds with a fixed fresh token and socket
(used for concrete refresh instances). -/
def issueOkFixed : String → ConsoleTokenResult :=
  fun _ => { success := true, token := some "newtok-123456", socket := some "ws://node-2" }

/-- An issuer whose fresh token is the 11-character credential
"abcdefgh...", a string that equals its own 8-character redaction
(take 8 ++ "..."). -/
def issueRawExposed : String → ConsoleTokenResult :=
  fun _ => { success := true, token := some "abcdefgh...", socket := some "ws://node-2" }

/-- Concrete metadata used by concrete registry instances. -/
def cexMeta : TokenMeta :=
  { serverId := "srv-1", socket := some "ws://node", expiresAt := some 99999 }

/-- Concrete registry record used by concrete session instances. -/
def cexRec : TokenRecord :=
  { serverId := "srv-1", socket := some "ws://node", expiresAt := none, createdAt := 0 }

/-- A concrete registry holding one short (3-character) credential. -/
def cex9Store : Store :=
  [("abc", { serverId := "srv-1", socket := none, expiresAt := none, createdAt := 0 })]

/-- A concrete registry holding one credential registered for resource "A". -/
def cex3Store : Store :=
  [("tokA", { serverId := "A", socket := some "ws://node-a", expiresAt := none, createdAt := 0 })]


/-- Looking a key up right after setting it returns the value just set. -/
theorem mapGet_mapSet_self (st : Store) (k : String) (v : TokenRecord) :
    mapGet (mapSet st k v) k = some v := by
  induction st with
  | nil => simp [mapSet, mapGet]
  | cons p rest ih =>
    by_cases h : p.1 = k
    · simp [mapSet, mapGet, h]
    · simp [mapSet, mapGet, h, ih]

/-- A successful lookup witnesses membership of the pair. -/
theorem mapGet_some_mem {st : Store} {k : String} {v : TokenRecord}
    (h : mapGet st k = some v) : (k, v) ∈ st := by
  induction st with
  | nil => simp [mapGet] at h
  | cons p rest ih =>
    obtain ⟨a, b⟩ := p
    by_cases hk : a = k
    · subst hk
      simp [mapGet] at h
      subst h
      exact List.mem_cons_self _ _
    · simp [mapGet, hk] at h
      exact List.mem_cons_of_mem _ (ih h)

/-- The keys after a set: unchanged if the key was present, appended otherwise. -/
theorem keys_mapSet (st : Store) (k : String) (v : TokenRecord) :
    (mapSet st k v).map Prod.fst =
      (if k ∈ st.map Prod.fst then st.map Prod.fst else st.map Prod.fst ++ [k]) := by
  induction st with
  | nil => simp [mapSet]
  | cons p rest ih =>
    by_cases h : p.1 = k
    · simp [mapSet, h]
    · simp only [mapSet, if_neg h, List.map_cons, ih, List.mem_cons]
      by_cases hk : k ∈ rest.map Prod.fst
      · simp [hk, Ne.symm h]
      · simp [hk, Ne.symm h]

/-- mapSet preserves key distinctness. -/
theorem storeWF_mapSet {st : Store} (h : StoreWF st) (k : String) (v : TokenRecord) :
    StoreWF (mapSet st k v) := by
  unfold StoreWF at h ⊢
  rw [keys_mapSet]
  by_cases hk : k ∈ st.map Prod.fst
  · simpa [hk]
  · simp only [hk, if_false]
    simp [List.nodup_append, h, hk]

/-- In a well-formed store, no entry for the deleted key survives mapDelete. -/
theorem mem_mapDelete_ne {st : Store} (h : StoreWF st) (k : String) :
    ∀ p ∈ mapDelete st k, p.1 ≠ k := by
  induction st with
  | nil => simp [mapDelete]
  | cons q rest ih =>
    obtain ⟨a, b⟩ := q
    unfold StoreWF at h
    simp only [List.map_cons, List.nodup_cons] at h
    intro p hp
    by_cases hq : a = k
    · subst hq
      simp only [mapDelete, if_pos rfl] at hp
      intro hpk
      exact h.1 (hpk ▸ List.mem_map_of_mem Prod.fst hp)
    · simp only [mapDelete, if_neg hq] at hp
      rcases List.mem_cons.mp hp with hp1 | hp2
      · subst hp1
        exact hq
      · exact ih h.2 p hp2

/-- In a well-formed store, a deleted key no longer resolves. -/
theorem mapGet_mapDelete_self {st : Store} (h : StoreWF st) (k : String) :
    mapGet (mapDelete st k) k = none := by
  cases hg : mapGet (mapDelete st k) k with
  | none => rfl
  | some v =>
    exact absurd rfl (mem_mapDelete_ne h k _ (mapGet_some_mem hg))

/-- Dropping a satisfied predicate from an everywhere-satisfying list empties it. -/
theorem dropWhile_all {p : Char → Bool} {t : List Char} (h : ∀ a ∈ t, p a) :
    t.dropWhile p = [] := by
  induction t with
  | nil => rfl
  | cons x xs ih =>
    rw [List.dropWhile_cons_of_pos (h x (List.mem_cons_self x xs))]
    exact ih (fun a ha => h a (List.mem_cons_of_mem x ha))

/-- Trimming is invariant under whitespace padding on both sides. -/
theorem trimChars_pad (l c t : List Char)
    (hl : ∀ a ∈ l, jsIsWS a) (ht : ∀ a ∈ t, jsIsWS a) :
    trimChars (l ++ c ++ t) = trimChars c := by
  unfold trimChars
  rw [List.append_assoc, List.dropWhile_append_of_pos hl, List.dropWhile_append]
  by_cases he : (c.dropWhile jsIsWS).isEmpty
  · rw [if_pos he, dropWhile_all ht, List.isEmpty_iff.mp he]
  · rw [if_neg he, List.reverse_append,
      List.dropWhile_append_of_pos (fun a ha => ht a (List.mem_reverse.mp ha))]

/-- jsTrim is invariant under whitespace padding on both sides. -/
theorem jsTrim_pad (lws c tws : String)
    (hl : ∀ a ∈ lws.data, jsIsWS a) (ht : ∀ a ∈ tws.data, jsIsWS a) :
    jsTrim (lws ++ c ++ tws) = jsTrim c := by
  unfold jsTrim
  rw [String.data_append, String.data_append, trimChars_pad _ _ _ hl ht]

/-- A closed session ignores every event. -/
theorem step_closed (issue : String → ConsoleTokenResult) (rid : String) (now : Nat)
    (s : SessionState) (e : Ev) (h : s.phase = .closed) :
    step issue rid now s e = (s, []) := by
  obtain ⟨ph, q, st⟩ := s
  simp only at h
  subst h
  cases e <;> rfl

/-- A closed session emits nothing over any further trace. -/
theorem runSession_closed (issue : String → ConsoleTokenResult) (rid : String)
    (s : SessionState) (evs : List (Nat × Ev)) (h : s.phase = .closed) :
    runSession issue rid s evs = (s, []) := by
  induction evs with
  | nil => rfl
  | cons p rest ih =>
    obtain ⟨t, e⟩ := p
    simp [runSession, step_closed issue rid t s e h, ih]

/-- Runs decompose over trace concatenation. -/
theorem runSession_append (issue : String → ConsoleTokenResult) (rid : String)
    (s : SessionState) (l1 l2 : List (Nat × Ev)) :
    runSession issue rid s (l1 ++ l2) =
      ((runSession issue rid (runSession issue rid s l1).1 l2).1,
       (runSession issue rid s l1).2 ++
         (runSession issue rid (runSession issue rid s l1).1 l2).2) := by
  induction l1 generalizing s with
  | nil => simp [runSession]
  | cons p rest ih =>
    obtain ⟨t, e⟩ := p
    simp [runSession, ih, List.append_assoc]

/-- Folding queueSteps is folding queuePushes over the non-auth messages. -/
theorem foldl_queueStep_filter (ms : List WireMsg) (q : List WireMsg) :
    List.foldl queueStep q ms =
      List.foldl queuePush q (ms.filter (fun m => !isAuthEvent m)) := by
  induction ms generalizing q with
  | nil => rfl
  | cons m rest ih =>
    by_cases h : isAuthEvent m
    · simp [queueStep, h, List.filter_cons, ih]
    · simp [queueStep, h, List.filter_cons, ih]

/-- The bounded queue after pushing a message sequence holds exactly the
most recent MAX_QUEUE entries, in arrival order. -/
theorem foldl_queuePush_eq (ms : List WireMsg) :
    ∀ q : List WireMsg, q.length ≤ MAX_QUEUE →
      List.foldl queuePush q ms = (q ++ ms).drop (q.length + ms.length - MAX_QUEUE) := by
  induction ms with
  | nil =>
    intro q hq
    simp [Nat.sub_eq_zero_of_le hq]
  | cons m rest ih =>
    intro q hq
    simp only [List.foldl_cons]
    by_cases h : MAX_QUEUE ≤ q.length
    · have hq200 : q.length = MAX_QUEUE := Nat.le_antisymm hq h
      obtain ⟨a, q0, rfl⟩ : ∃ a q0, q = a :: q0 := by
        cases q with
        | nil => exact absurd hq200 (by simp [MAX_QUEUE])
        | cons a q0 => exact ⟨a, q0, rfl⟩
      have hq0 : (a :: q0).drop 1 = q0 := rfl
      simp only [queuePush, if_pos h, hq0]
      have hlen : (q0 ++ [m]).length ≤ MAX_QUEUE := by
        simp only [List.length_append, List.length_cons, List.length_nil]
        simp only [List.length_cons] at hq200
        omega
      rw [ih _ hlen]
      have e1 : (q0 ++ [m]).length + rest.length - MAX_QUEUE = rest.length := by
        simp only [List.length_append, List.length_cons, List.length_nil]
        simp only [List.length_cons] at hq200
        omega
      have e2 : (a :: q0).length + (m :: rest).length - MAX_QUEUE = rest.length + 1 := by
        simp only [List.length_cons]
        simp only [List.length_cons] at hq200
        omega
      rw [e1, e2, List.cons_append, List.drop_succ_cons, List.append_assoc,
        List.singleton_append]
    · simp only [queuePush, if_neg h]
      have hlen : (q ++ [m]).length ≤ MAX_QUEUE := by
        simp only [List.length_append, List.length_cons, List.length_nil]
        omega
      rw [ih _ hlen]
      have e1 : (q ++ [m]).length + rest.length = q.length + (m :: rest).length := by
        simp only [List.length_append, List.length_cons, List.length_nil]
        omega
      rw [List.append_assoc, List.singleton_append, e1]

/-- While the backend is connecting, client messages only evolve the queue
and emit nothing. -/
theorem runSession_connecting_msgs (issue : String → ConsoleTokenResult) (rid : String)
    (tok : JSVal) (meta : TokenRecord) (st : Store) (q : List WireMsg)
    (tms : List (Nat × WireMsg)) :
    runSession issue rid ⟨.connecting tok meta, q, st⟩
        (tms.map (fun p => (p.1, Ev.clientMsg p.2))) =
      (⟨.connecting tok meta, List.foldl queueStep q (tms.map Prod.snd), st⟩, []) := by
  induction tms generalizing q with
  | nil => rfl
  | cons p rest ih =>
    obtain ⟨t, m⟩ := p
    simp [runSession, step, ih]

/-- During awaitingAuth, a run whose client messages never authenticate,
ended by the auth-timer firing, reaches closed having sent the client
exactly one structured error frame followed by a close. -/
theorem runSession_awaiting_aux (issue : String → ConsoleTokenResult) (rid : String)
    (tms : List (Nat × WireMsg)) :
    ∀ st : Store, (∀ p ∈ tms, validAuthB p.1 st rid p.2 = false) →
    ∀ tEnd : Nat,
    ∃ emsg st2, runSession issue rid ⟨.awaitingAuth, [], st⟩
        (tms.map (fun p => (p.1, Ev.clientMsg p.2)) ++ [(tEnd, Ev.authTimeoutFire)]) =
      (⟨.closed, [], st2⟩, [Out.toClient (errFrame emsg), Out.closeClient]) := by
  induction tms with
  | nil =>
    intro st h tEnd
    exact ⟨"Auth timeout", st, by simp [runSession, step]⟩
  | cons p rest ih =>
    intro st h tEnd
    obtain ⟨t, m⟩ := p
    have hm := h (t, m) (List.mem_cons_self _ _)
    simp only [List.map_cons, List.cons_append, runSession]
    cases haf : authFrameArg m with
    | none =>
      have hstep : step issue rid t ⟨.awaitingAuth, [], st⟩ (Ev.clientMsg m) =
          (⟨.awaitingAuth, [], st⟩, []) := by
        simp [step, haf]
      rw [hstep]
      obtain ⟨emsg, st2, hrun⟩ :=
        ih st (fun p hp => h p (List.mem_cons_of_mem _ hp)) tEnd
      exact ⟨emsg, st2, by simp [hrun]⟩
    | some v =>
      simp only [validAuthB, haf] at hm
      cases hg : (getToken t v st).1 with
      | none =>
        have hstep : step issue rid t ⟨.awaitingAuth, [], st⟩ (Ev.clientMsg m) =
            (⟨.closed, [], (getToken t v st).2⟩,
             [Out.toClient (errFrame "Invalid or expired token"), Out.closeClient]) := by
          simp [step, haf, hg]
        rw [hstep]
        rw [runSession_closed issue rid _ _ rfl]
        exact ⟨"Invalid or expired token", (getToken t v st).2, by simp⟩
      | some meta =>
        rw [hg] at hm
        have hne : ¬ meta.serverId = rid := by
          simpa using hm
        have hstep : step issue rid t ⟨.awaitingAuth, [], st⟩ (Ev.clientMsg m) =
            (⟨.closed, [], (getToken t v st).2⟩,
             [Out.toClient (errFrame "Invalid or expired token"), Out.closeClient]) := by
          simp [step, haf, hg, hne]
        rw [hstep]
        rw [runSession_closed issue rid _ _ rfl]
        exact ⟨"Invalid or expired token", (getToken t v st).2, by simp⟩

/-- Claim C10: calling the registry put (storeToken) with an empty or
absent credential — empty string, null, or undefined — leaves the registry
completely unchanged: no entry is added, removed, or modified. -/
theorem storeToken_falsy_noop (now : Nat) (meta : TokenMeta) (st : Store) :
    storeToken now .nullv meta st = st ∧
    storeToken now .undef meta st = st ∧
    storeToken now (.str "") meta st = st :=
  ⟨rfl, rfl, rfl⟩

/-- Claim C8 counterexample: with the empty-string credential, put stores
nothing (the token is falsy), so the immediate whitespace-padded get
returns absent rather than the metadata; the claim quantified over every
credential string is therefore false. -/
theorem trim_roundtrip_cex :
    (getToken 0 (.str ("" ++ "" ++ " ")) (storeToken 0 (.str "") cexMeta [])).1 = none := by
  rfl

/-- Claim C8 (amended): for every non-empty credential string and every
metadata whose expiry (when set and nonzero) has not yet passed at the
lookup time, a put followed immediately by a get of the credential padded
with arbitrary leading/trailing whitespace returns the stored metadata:
registry keys are trim-invariant on both store and lookup. -/
theorem trim_roundtrip (st : Store) (meta : TokenMeta) (c lws tws : String) (t : Nat)
    (hc : c ≠ "")
    (hl : ∀ a ∈ lws.data, jsIsWS a) (hw : ∀ a ∈ tws.data, jsIsWS a)
    (hexp : ∀ e, meta.expiresAt = some e → 0 < e → t ≤ e) :
    (getToken t (.str (lws ++ c ++ tws)) (storeToken t (.str c) meta st)).1 =
      some { serverId := meta.serverId, socket := meta.socket,
             expiresAt := meta.expiresAt, createdAt := t } := by
  have htr : (JSVal.str c).truthy = true := by
    simp [JSVal.truthy, hc]
  have hef : isExpiredAt t meta.expiresAt = false := by
    cases he : meta.expiresAt with
    | none => rfl
    | some e =>
      simp only [isExpiredAt]
      by_cases h0 : e = 0
      · simp [h0]
      · have hle := hexp e he (Nat.pos_of_ne_zero h0)
        simp [h0, Nat.not_lt.mpr hle]
  unfold storeToken
  rw [if_pos htr]
  unfold getToken
  simp only [JSVal.jsToString]
  rw [jsTrim_pad lws c tws hl hw, mapGet_mapSet_self]
  simp [hef]

/-- Claim C8 witness: a concrete non-empty credential with a live expiry
round-trips through whitespace padding. -/
theorem trim_roundtrip_witness :
    (getToken 5 (.str (" " ++ "tok-1" ++ "  ")) (storeToken 5 (.str "tok-1")
        { serverId := "srv-1", socket := some "ws://n", expiresAt := some 10 } [])).1 =
      some { serverId := "srv-1", socket := some "ws://n",
             expiresAt := some 10, createdAt := 5 } :=
  trim_roundtrip [] { serverId := "srv-1", socket := some "ws://n", expiresAt := some 10 }
    "tok-1" " " "  " 5 (by decide) (by decide) (by decide)
    (fun e he h0 => by simp at he; omega)

/-- Claim C9 counterexample: for the 3-character credential "abc" the
diagnostic listing entry is "abc..." and every credential whose redaction
is "abc..." equals "abc": the listing uniquely determines — and hence
exposes — the full credential for short keys, contradicting the claim for
credentials of any length. -/
theorem listTokens_short_key_exposed :
    listTokens cex9Store =
      [{ tokenRedacted := "abc...", serverId := "srv-1", createdAt := 0, expiresAt := none }] ∧
    ∀ k : String, redact8 k = "abc..." → k = "abc" := by
  constructor
  · rfl
  · intro k hk
    have hdata : k.data.take 8 ++ "...".data = "abc".data ++ "...".data :=
      congrArg String.data hk
    have htake : k.data.take 8 = "abc".data :=
      List.append_inj_left' hdata rfl
    have hlen : min 8 k.data.length = 3 := by
      have := congrArg List.length htake
      simpa [List.length_take] using this
    have hklen : k.data.length = 3 := by omega
    have hfull : k.data.take 8 = k.data := List.take_of_length_le (by omega)
    have : k.data = "abc".data := hfull ▸ htake
    cases k with
    | mk d =>
      exact congrArg String.mk this

/-- Claim C9 (amended): every listing entry carries exactly the
first-8-character redaction of its stored key (with the "..." marker), a
value that depends only on the first 8 characters of the credential; for
credentials longer than 8 characters the full credential is not exposed:
a different credential produces the identical listing entry. -/
theorem listTokens_redaction (st : Store) (en : TokenListEntry)
    (hen : en ∈ listTokens st) :
    ∃ k v, (k, v) ∈ st ∧
      en = { tokenRedacted := redact8 k, serverId := v.serverId,
             createdAt := v.createdAt, expiresAt := v.expiresAt } ∧
      (∀ k2 : String, k2.data.take 8 = k.data.take 8 → redact8 k2 = redact8 k) ∧
      (8 < k.length → ∃ k2, k2 ≠ k ∧ redact8 k2 = redact8 k) := by
  unfold listTokens at hen
  obtain ⟨p, hp, hpe⟩ := List.mem_map.mp hen
  refine ⟨p.1, p.2, hp, hpe.symm, ?_, ?_⟩
  · intro k2 h2
    unfold redact8
    rw [h2]
  · intro hlong
    refine ⟨p.1 ++ "x", ?_, ?_⟩
    · intro hcontra
      have := congrArg String.length hcontra
      simp [String.length_append] at this
      exact absurd this (by decide)
    · unfold redact8
      rw [String.data_append, List.take_append_eq_append_take]
      have h8 : 8 - p.1.data.length = 0 := by
        have : 8 < p.1.data.length := hlong
        omega
      rw [h8]
      simp

/-- Claim C9 witness: a concrete long credential in a concrete registry,
instantiating the amended redaction statement. -/
theorem listTokens_redaction_witness :
    ({ tokenRedacted := "abcdefgh...", serverId := "srv-9", createdAt := 4,
       expiresAt := none } : TokenListEntry) ∈
      listTokens [("abcdefghij",
        { serverId := "srv-9", socket := none, expiresAt := none, createdAt := 4 })] ∧
    ∃ k v, (k, v) ∈
        ([("abcdefghij",
          { serverId := "srv-9", socket := none, expiresAt := none, createdAt := 4 })] : Store) ∧
      ({ tokenRedacted := "abcdefgh...", serverId := "srv-9", createdAt := 4,
         expiresAt := none } : TokenListEntry) =
        { tokenRedacted := redact8 k, serverId := v.serverId,
          createdAt := v.createdAt, expiresAt := v.expiresAt } ∧
      (∀ k2 : String, k2.data.take 8 = k.data.take 8 → redact8 k2 = redact8 k) ∧
      (8 < k.length → ∃ k2, k2 ≠ k ∧ redact8 k2 = redact8 k) :=
  ⟨by decide, listTokens_redaction _ _ (by decide)⟩

/-- Claim C5: in a well-formed registry, a credential registered via put
with a nonzero expiry resolves through get to its stored metadata at every
time up to expiresAt; at every later time get returns absent (lazily
deleting the entry), after which the registry holds no entry under that
credential and the listing no longer contains an entry derived from it. -/
theorem registry_expiry (st : Store) (hwf : StoreWF st) (tok : String) (meta : TokenMeta)
    (t0 e : Nat) (htok : tok ≠ "") (he : meta.expiresAt = some e) (he0 : 0 < e) :
    (∀ t, t ≤ e →
      getToken t (.str tok) (storeToken t0 (.str tok) meta st) =
        (some { serverId := meta.serverId, socket := meta.socket,
                expiresAt := meta.expiresAt, createdAt := t0 },
         storeToken t0 (.str tok) meta st)) ∧
    (∀ t, e < t →
      getToken t (.str tok) (storeToken t0 (.str tok) meta st) =
        (none, mapDelete (storeToken t0 (.str tok) meta st) (jsTrim tok)) ∧
      mapGet (mapDelete (storeToken t0 (.str tok) meta st) (jsTrim tok)) (jsTrim tok) = none ∧
      ∀ en ∈ listTokens (mapDelete (storeToken t0 (.str tok) meta st) (jsTrim tok)),
        ∃ k v, (k, v) ∈ mapDelete (storeToken t0 (.str tok) meta st) (jsTrim tok) ∧
          k ≠ jsTrim tok ∧
          en = { tokenRedacted := redact8 k, serverId := v.serverId,
                 createdAt := v.createdAt, expiresAt := v.expiresAt }) := by
  have htr : (JSVal.str tok).truthy = true := by
    simp [JSVal.truthy, htok]
  have hst1 : storeToken t0 (.str tok) meta st =
      mapSet st (jsTrim tok)
        { serverId := meta.serverId, socket := meta.socket,
          expiresAt := meta.expiresAt, createdAt := t0 } := by
    unfold storeToken
    rw [if_pos htr]
    rfl
  have hwf1 : StoreWF (storeToken t0 (.str tok) meta st) := by
    rw [hst1]
    exact storeWF_mapSet hwf _ _
  have hget : mapGet (storeToken t0 (.str tok) meta st) (jsTrim tok) =
      some { serverId := meta.serverId, socket := meta.socket,
             expiresAt := meta.expiresAt, createdAt := t0 } := by
    rw [hst1]
    exact mapGet_mapSet_self st _ _
  constructor
  · intro t hte
    have hef : isExpiredAt t meta.expiresAt = false := by
      rw [he]
      simp [isExpiredAt, Nat.not_lt.mpr hte]
    unfold getToken
    simp only [JSVal.jsToString]
    rw [hget]
    simp [hef]
  · intro t hte
    have hef : isExpiredAt t meta.expiresAt = true := by
      rw [he]
      simp [isExpiredAt, hte]
      omega
    refine ⟨?_, mapGet_mapDelete_self hwf1 _, ?_⟩
    · unfold getToken
      simp only [JSVal.jsToString]
      rw [hget]
      simp [hef]
    · intro en hen
      unfold listTokens at hen
      obtain ⟨p, hp, hpe⟩ := List.mem_map.mp hen
      exact ⟨p.1, p.2, hp, mem_mapDelete_ne hwf1 _ p hp, hpe.symm⟩

/-- Claim C5 witness: a concrete credential with expiry 10 resolves at
time 10 and is gone (from get and from the listing) at time 11. -/
theorem registry_expiry_witness :
    (getToken 10 (.str "tok-exp") (storeToken 2 (.str "tok-exp")
        { serverId := "srv-1", socket := some "ws://n", expiresAt := some 10 } [])).1 =
      some { serverId := "srv-1", socket := some "ws://n",
             expiresAt := some 10, createdAt := 2 } ∧
    (getToken 11 (.str "tok-exp") (storeToken 2 (.str "tok-exp")
        { serverId := "srv-1", socket := some "ws://n", expiresAt := some 10 } [])).1 = none := by
  have h := registry_expiry [] (by simp [StoreWF]) "tok-exp"
    { serverId := "srv-1", socket := some "ws://n", expiresAt := some 10 }
    2 10 (by decide) rfl (by decide)
  constructor
  · rw [h.1 10 (by decide)]
  · rw [(h.2 11 (by decide)).1]

/-- Claim C6: for every resource id, configuration, and pair of upstream
outcomes, getConsoleToken returns a structured success-or-failure result
(never a raised fault — the embedding is a total function into the result
type, and every failure carries an error message); the application-key
fallback attempt occurs only when that secondary authority is configured;
a failed primary with no secondary configured, or two failed attempts,
produce a structured failure. -/
theorem consoleToken_structured (panelUrl appKey apiKey : Option String) (rid : String)
    (primary secondary : HttpOutcome) :
    ((getConsoleToken panelUrl appKey apiKey rid primary secondary).1.success = true ∨
      ((getConsoleToken panelUrl appKey apiKey rid primary secondary).1.success = false ∧
       (getConsoleToken panelUrl appKey apiKey rid primary secondary).1.error ≠ none)) ∧
    (ConsoleAttempt.applicationApi ∈
        (getConsoleToken panelUrl appKey apiKey rid primary secondary).2 →
      truthyOS appKey = true) ∧
    (primary = .fail → truthyOS appKey = false →
      (getConsoleToken panelUrl appKey apiKey rid primary secondary).1.success = false) ∧
    (primary = .fail → secondary = .fail →
      (getConsoleToken panelUrl appKey apiKey rid primary secondary).1.success = false) := by
  by_cases hp : truthyOS panelUrl <;> by_cases hk : truthyOS apiKey <;>
    cases primary <;> by_cases ha : truthyOS appKey <;> cases secondary <;>
      simp [getConsoleToken, hp, hk, ha]

/-- Claim C6 witness: with no application key configured and a failing
primary attempt, the result is a structured failure. -/
theorem consoleToken_structured_witness :
    (getConsoleToken (some "https://panel.example") none (some "client-key") "srv-1"
        .fail .fail).1.success = false :=
  (consoleToken_structured (some "https://panel.example") none (some "client-key") "srv-1"
    .fail .fail).2.2.1 rfl rfl

/-- Claim C2: a relay session whose client messages never authenticate —
so that the 15-second auth timer fires — causes the inbound side to
receive exactly one structured error event, after which the inbound
connection is closed and the session emits nothing further. -/
theorem relay_auth_timeout (issue : String → ConsoleTokenResult) (rid : String)
    (st : Store) (tms : List (Nat × WireMsg)) (tEnd : Nat)
    (h : ∀ p ∈ tms, validAuthB p.1 st rid p.2 = false) :
    ∃ emsg st2,
      runSession issue rid ⟨.awaitingAuth, [], st⟩
          (tms.map (fun p => (p.1, Ev.clientMsg p.2)) ++ [(tEnd, Ev.authTimeoutFire)]) =
        (⟨.closed, [], st2⟩, [Out.toClient (errFrame emsg), Out.closeClient]) ∧
      countClientErrors [Out.toClient (errFrame emsg), Out.closeClient] = 1 ∧
      ∀ evs2 : List (Nat × Ev),
        (runSession issue rid (⟨.closed, [], st2⟩ : SessionState) evs2).2 = [] := by
  obtain ⟨emsg, st2, hrun⟩ := runSession_awaiting_aux issue rid tms st h tEnd
  refine ⟨emsg, st2, hrun, ?_, ?_⟩
  · simp [countClientErrors, isClientErrorOut, errFrame]
  · intro evs2
    rw [runSession_closed issue rid _ _ rfl]

/-- Claim C2 witness: a session that only sends a non-auth frame, then the
timer fires. -/
theorem relay_auth_timeout_witness :
    (∀ p ∈ [((1000 : Nat), WireMsg.json "send logs" [JSVal.nullv])],
        validAuthB p.1 ([] : Store) "srv-1" p.2 = false) ∧
    ∃ emsg st2,
      runSession issueFail "srv-1" ⟨.awaitingAuth, [], []⟩
          ([((1000 : Nat), WireMsg.json "send logs" [JSVal.nullv])].map
              (fun p => (p.1, Ev.clientMsg p.2)) ++ [(15000, Ev.authTimeoutFire)]) =
        (⟨.closed, [], st2⟩, [Out.toClient (errFrame emsg), Out.closeClient]) ∧
      countClientErrors [Out.toClient (errFrame emsg), Out.closeClient] = 1 ∧
      ∀ evs2 : List (Nat × Ev),
        (runSession issueFail "srv-1" (⟨.closed, [], st2⟩ : SessionState) evs2).2 = [] :=
  ⟨by decide, relay_auth_timeout issueFail "srv-1" [] _ 15000 (by decide)⟩

/-- Claim C3: a relay opened for resource rid that is presented a
credential whose registry record exists but names a different resource is
rejected at the handshake: the client receives one structured error frame
and a close, no outbound connection is opened, and the session emits
nothing further. -/
theorem relay_mismatch_rejected (issue : String → ConsoleTokenResult) (rid : String)
    (now : Nat) (st : Store) (q : List WireMsg) (tok : String) (meta : TokenRecord)
    (htok : tok ≠ "")
    (hget : (getToken now (.str tok) st).1 = some meta)
    (hne : meta.serverId ≠ rid) :
    step issue rid now ⟨.awaitingAuth, q, st⟩ (.clientMsg (.json "auth" [.str tok])) =
      ((⟨.closed, q, (getToken now (.str tok) st).2⟩ : SessionState),
       [Out.toClient (errFrame "Invalid or expired token"), Out.closeClient]) ∧
    (∀ ep, Out.openRemote ep ∉
      [Out.toClient (errFrame "Invalid or expired token"), Out.closeClient]) ∧
    ∀ evs : List (Nat × Ev),
      (runSession issue rid
        (⟨.closed, q, (getToken now (.str tok) st).2⟩ : SessionState) evs).2 = [] := by
  have haf : authFrameArg (.json "auth" [.str tok]) = some (.str tok) := by
    simp [authFrameArg, JSVal.truthy, htok]
  refine ⟨?_, ?_, ?_⟩
  · simp [step, haf, hget, hne]
  · intro ep
    simp
  · intro evs
    rw [runSession_closed issue rid _ _ rfl]

/-- Claim C3 witness: a credential registered for resource "A" presented
on a relay opened for resource "B". -/
theorem relay_mismatch_rejected_witness :
    ("tokA" : String) ≠ "" ∧
    (getToken 5 (.str "tokA") cex3Store).1 =
      some { serverId := "A", socket := some "ws://node-a", expiresAt := none, createdAt := 0 } ∧
    ({ serverId := "A", socket := some "ws://node-a", expiresAt := none,
       createdAt := 0 } : TokenRecord).serverId ≠ "B" ∧
    step issueFail "B" 5 ⟨.awaitingAuth, [], cex3Store⟩
        (.clientMsg (.json "auth" [.str "tokA"])) =
      ((⟨.closed, [], (getToken 5 (.str "tokA") cex3Store).2⟩ : SessionState),
       [Out.toClient (errFrame "Invalid or expired token"), Out.closeClient]) :=
  ⟨by decide, by decide, by decide,
   (relay_mismatch_rejected issueFail "B" 5 cex3Store [] "tokA"
      { serverId := "A", socket := some "ws://node-a", expiresAt := none, createdAt := 0 }
      (by decide) (by decide) (by decide)).1⟩

/-- Claim C7 counterexample: during RELAYING with the outbound socket open,
a client auth frame other than the consumed initial one is neither
forwarded to the outbound connection nor appended to the pending queue —
forwardClientMessage drops every client auth frame — so the claim that
every inbound message except the initial auth frame is forwarded or
queued is false at this input. -/
theorem relay_forward_cex :
    step issueFail "srv-1" 0 ⟨.relaying (.str "tok") cexRec, [], []⟩
        (.clientMsg (.json "auth" [.str "tok2"])) =
      ((⟨.relaying (.str "tok") cexRec, [], []⟩ : SessionState), []) := by
  rfl

/-- Claim C7 (amended): during RELAYING every inbound message whose event
is not auth is forwarded to the open outbound connection, and while the
outbound connection is still connecting it is appended to the (bounded)
pending queue; client auth frames — not only the consumed initial one —
are dropped in both situations. -/
theorem relay_forward_or_queue (issue : String → ConsoleTokenResult) (rid : String)
    (now : Nat) (tok : JSVal) (meta : TokenRecord) (q : List WireMsg) (st : Store)
    (m : WireMsg) :
    (isAuthEvent m = false →
      step issue rid now ⟨.relaying tok meta, q, st⟩ (.clientMsg m) =
        ((⟨.relaying tok meta, q, st⟩ : SessionState), [Out.toRemote m]) ∧
      step issue rid now ⟨.connecting tok meta, q, st⟩ (.clientMsg m) =
        ((⟨.connecting tok meta, queuePush q m, st⟩ : SessionState), [])) ∧
    (isAuthEvent m = true →
      step issue rid now ⟨.relaying tok meta, q, st⟩ (.clientMsg m) =
        ((⟨.relaying tok meta, q, st⟩ : SessionState), []) ∧
      step issue rid now ⟨.connecting tok meta, q, st⟩ (.clientMsg m) =
        ((⟨.connecting tok meta, q, st⟩ : SessionState), [])) := by
  constructor <;> intro h <;> exact ⟨by simp [step, h], by simp [step, queueStep, h]⟩

/-- Claim C7 witness: a concrete non-auth command frame is forwarded
during RELAYING. -/
theorem relay_forward_or_queue_witness :
    isAuthEvent (WireMsg.json "send command" [JSVal.str "say hi"]) = false ∧
    step issueFail "srv-1" 0 ⟨.relaying (.str "tok") cexRec, [], []⟩
        (.clientMsg (.json "send command" [.str "say hi"])) =
      ((⟨.relaying (.str "tok") cexRec, [], []⟩ : SessionState),
       [Out.toRemote (.json "send command" [.str "say hi"])]) :=
  ⟨by decide,
   ((relay_forward_or_queue issueFail "srv-1" 0 (.str "tok") cexRec [] []
      (.json "send command" [.str "say hi"])).1 (by decide)).1⟩

/-- Claim C4: client messages arriving after auth but before the outbound
socket reports open are flushed to the outbound side on open, immediately
after the auth frame, in exactly their arrival order (FIFO); at most
MAX_QUEUE (200) are retained, and when the queue is full the oldest entry
is evicted, so precisely the most recent non-auth messages survive. -/
theorem relay_queue_fifo (issue : String → ConsoleTokenResult) (rid : String)
    (tok : JSVal) (meta : TokenRecord) (st : Store)
    (tms : List (Nat × WireMsg)) (tOpen : Nat) :
    (runSession issue rid ⟨.connecting tok meta, [], st⟩
        (tms.map (fun p => (p.1, Ev.clientMsg p.2)) ++ [(tOpen, Ev.remoteOpen)])).2 =
      Out.toRemote (.json "auth" [tok]) ::
        (((tms.map Prod.snd).filter (fun m => !isAuthEvent m)).drop
            (((tms.map Prod.snd).filter (fun m => !isAuthEvent m)).length - MAX_QUEUE)).map
          Out.toRemote ∧
    (((tms.map Prod.snd).filter (fun m => !isAuthEvent m)).drop
        (((tms.map Prod.snd).filter (fun m => !isAuthEvent m)).length - MAX_QUEUE)).length
      ≤ MAX_QUEUE := by
  constructor
  · rw [runSession_append, runSession_connecting_msgs]
    rw [foldl_queueStep_filter, foldl_queuePush_eq _ _ (by simp [MAX_QUEUE])]
    simp [runSession, step]
  · rw [List.length_drop]
    omega

/-- Claim C1 (amended): in RELAYING, a backend "token expired" or
"token expiring" frame causes exactly one issuance call to getConsoleToken
for the relay's resource id; on successful issuance the new credential is
registered in the registry under that same resource id with a fresh
15-minute expiry, an auth frame carrying the new credential is re-sent on
the existing outbound connection (the session stays in RELAYING on the
same connection and no outbound connection is opened), the client receives
a "token refreshed" event whose only argument is the 8-character redaction
of the new credential — a value depending only on the credential's first 8
characters, from which a credential longer than 8 characters is not
recoverable (a different credential yields the identical argument), and
which can coincide with the raw credential only when the credential has
exactly 11 characters — and the original expiry frame is still forwarded
to the client afterwards. -/
theorem relay_token_refresh (issue : String → ConsoleTokenResult) (rid : String)
    (now : Nat) (tok : JSVal) (meta : TokenRecord) (q : List WireMsg) (st : Store)
    (ev : String) (args : List JSVal) (newTok : String)
    (hev : ev = "token expired" ∨ ev = "token expiring")
    (hs : (issue rid).success = true)
    (ht : (issue rid).token = some newTok)
    (hnt : newTok ≠ "") :
    step issue rid now ⟨.relaying tok meta, q, st⟩ (.remoteMsg (.json ev args)) =
      ((⟨.relaying tok meta, q,
          storeToken now (.str newTok)
            { serverId := rid,
              socket := if truthyOS (issue rid).socket then (issue rid).socket
                        else meta.socket,
              expiresAt := some (now + 15 * 60 * 1000) } st⟩ : SessionState),
       [Out.issueReq rid,
        Out.toRemote (.json "auth" [.str newTok]),
        Out.toClient (.json "token refreshed" [.str (redact8 newTok)]),
        Out.toClient (.json ev args)]) ∧
    mapGet (storeToken now (.str newTok)
        { serverId := rid,
          socket := if truthyOS (issue rid).socket then (issue rid).socket
                    else meta.socket,
          expiresAt := some (now + 15 * 60 * 1000) } st) (jsTrim newTok) =
      some { serverId := rid,
             socket := if truthyOS (issue rid).socket then (issue rid).socket
                       else meta.socket,
             expiresAt := some (now + 15 * 60 * 1000), createdAt := now } ∧
    countIssueCalls
      [Out.issueReq rid,
       Out.toRemote (.json "auth" [.str newTok]),
       Out.toClient (.json "token refreshed" [.str (redact8 newTok)]),
       Out.toClient (.json ev args)] = 1 ∧
    (∀ ep, Out.openRemote ep ∉
      [Out.issueReq rid,
       Out.toRemote (.json "auth" [.str newTok]),
       Out.toClient (.json "token refreshed" [.str (redact8 newTok)]),
       Out.toClient (.json ev args)]) ∧
    redact8 newTok = String.mk (newTok.data.take 8 ++ "...".data) ∧
    (∀ k2 : String, k2.data.take 8 = newTok.data.take 8 → redact8 k2 = redact8 newTok) ∧
    (8 < newTok.length → ∃ k2, k2 ≠ newTok ∧ redact8 k2 = redact8 newTok) ∧
    (newTok.length ≠ 11 → redact8 newTok ≠ newTok) := by
  have htr : truthyOS (issue rid).token = true := by
    rw [ht]
    simp [truthyOS, hnt]
  have hlife : isTokenLifecycle ev = true := by
    rcases hev with h | h <;> simp [isTokenLifecycle, h]
  have hget : (issue rid).token.getD "null" = newTok := by
    rw [ht]
    rfl
  refine ⟨?_, ?_, ?_, ?_, rfl, ?_, ?_, ?_⟩
  · simp only [step, hlife, refreshOutputs, hs, htr, Bool.true_and, if_true, hget]
  · have htr2 : (JSVal.str newTok).truthy = true := by
      simp [JSVal.truthy, hnt]
    unfold storeToken
    rw [if_pos htr2]
    exact mapGet_mapSet_self st _ _
  · rfl
  · intro ep
    simp
  · intro k2 h2
    unfold redact8
    rw [h2]
  · intro hlong
    refine ⟨newTok ++ "x", ?_, ?_⟩
    · intro hcontra
      have := congrArg String.length hcontra
      simp [String.length_append] at this
      exact absurd this (by decide)
    · unfold redact8
      rw [String.data_append, List.take_append_eq_append_take]
      have h8 : 8 - newTok.data.length = 0 := by
        have : 8 < newTok.data.length := hlong
        omega
      rw [h8]
      simp
  · intro h11 hcontra
    have hlen : (newTok.data.take 8 ++ "...".data).length = newTok.data.length :=
      congrArg String.length hcontra
    simp only [List.length_append, List.length_take] at hlen
    have h3 : ("...".data).length = 3 := rfl
    rw [h3] at hlen
    have ht11 : newTok.length = newTok.data.length := rfl
    omega

/-- Claim C1 witness: a concrete refresh on a concrete relaying session. -/
theorem relay_token_refresh_witness :
    (issueOkFixed "srv-1").success = true ∧
    (issueOkFixed "srv-1").token = some "newtok-123456" ∧
    step issueOkFixed "srv-1" 100 ⟨.relaying (.str "tok") cexRec, [], []⟩
        (.remoteMsg (.json "token expired" [])) =
      ((⟨.relaying (.str "tok") cexRec, [],
          storeToken 100 (.str "newtok-123456")
            { serverId := "srv-1",
              socket := if truthyOS (issueOkFixed "srv-1").socket
                        then (issueOkFixed "srv-1").socket else cexRec.socket,
              expiresAt := some (100 + 15 * 60 * 1000) } []⟩ : SessionState),
       [Out.issueReq "srv-1",
        Out.toRemote (.json "auth" [.str "newtok-123456"]),
        Out.toClient (.json "token refreshed" [.str (redact8 "newtok-123456")]),
        Out.toClient (.json "token expired" [])]) :=
  ⟨rfl, rfl,
   (relay_token_refresh issueOkFixed "srv-1" 100 (.str "tok") cexRec [] []
      "token expired" [] "newtok-123456" (Or.inl rfl) rfl rfl (by decide)).1⟩

/-- Claim C1 counterexample: the issuer may return the 11-character
credential "abcdefgh...", which equals its own 8-character redaction
(redact8 "abcdefgh..." = "abcdefgh..."); the relay's "token refreshed"
event then carries the raw new credential itself as its argument, so the
claim's "never the raw new credential" conclusion is false at this input. -/
theorem relay_token_refresh_cex :
    (issueRawExposed "srv-1").success = true ∧
    (issueRawExposed "srv-1").token = some "abcdefgh..." ∧
    redact8 "abcdefgh..." = "abcdefgh..." ∧
    step issueRawExposed "srv-1" 100 ⟨.relaying (.str "tok") cexRec, [], []⟩
        (.remoteMsg (.json "token expired" [])) =
      ((⟨.relaying (.str "tok") cexRec, [],
          storeToken 100 (.str "abcdefgh...")
            { serverId := "srv-1", socket := some "ws://node-2",
              expiresAt := some (100 + 15 * 60 * 1000) } []⟩ : SessionState),
       [Out.issueReq "srv-1",
        Out.toRemote (.json "auth" [.str "abcdefgh..."]),
        Out.toClient (.json "token refreshed" [.str "abcdefgh..."]),
        Out.toClient (.json "token expired" [])]) :=
  ⟨rfl, rfl, by decide, by decide⟩
